import Mathlib

/-!
A shallow embedding of the SIEM detection engine (`siem/detectors.py`)
together with proofs about its behaviour.

Modelling conventions:
* `datetime` instants are integers (seconds since the epoch); a
  `timedelta(minutes = w)` is `60 * w` seconds.
* Python dictionaries with string keys become association lists; `dict.get`
  is `find?`-based lookup returning `Option`.
* The generic scalar values stored in `DetectionRule.parameters` are the
  tagged type `ParamValue` (integers, floats-as-rationals, strings).
* Fallible code — Python `int(...)` / `float(...)` raising `ValueError` on
  a non-coercible argument — becomes `Except String`.
* `datetime.utcnow()` (used only for the informational `created_at` field
  of alerts) is modelled by an explicit `now` argument threaded through.
* The mutable nested `defaultdict` window store
  `Dict[str, Dict[str, Deque[Event]]]` is a total function
  `rule id → grouping key → bucket`, an empty bucket standing for an
  absent entry (observationally equivalent to `defaultdict` auto-creation).
-/

/-- Modelled from the spec: the immutable event record (`models.Event`; the
`models` module itself is not part of the excerpt, only its spec section 3).
`details` is a mapping of string keys to string values. -/
structure Event where
  timestamp : ℤ
  source : String
  category : String
  severity : String
  details : List (String × String)
deriving DecidableEq, Repr

/-- Modelled from the spec: a scalar stored in a rule's generic `parameters`
mapping — an int, a float (modelled exactly as a rational), or a string. -/
inductive ParamValue where
  | int (n : ℤ)
  | float (q : ℚ)
  | str (s : String)
deriving DecidableEq, Repr

/-- Modelled from the spec: the immutable rule record (`models.DetectionRule`). -/
structure DetectionRule where
  id : String
  name : String
  rule_type : String
  description : String
  severity : String
  enabled : Bool
  parameters : List (String × ParamValue)
  remediation : Option String
deriving DecidableEq, Repr

/-- Modelled from the spec: the immutable alert record (`models.Alert`). -/
structure Alert where
  id : String
  created_at : ℤ
  title : String
  description : String
  priority : String
  events : List Event
  remediation : Option String
deriving DecidableEq, Repr

/-- `dict.get` on an event's `details` mapping (string keys). -/
def detailsGet (d : List (String × String)) (k : String) : Option String :=
  (d.find? (fun p => p.1 == k)).map (fun p => p.2)

/-- `dict.get` on a rule's `parameters` mapping. -/
def paramLookup (ps : List (String × ParamValue)) (k : String) : Option ParamValue :=
  (ps.find? (fun p => p.1 == k)).map (fun p => p.2)

/-- `params.get(k, d)` — lookup with a default. -/
def paramGetD (ps : List (String × ParamValue)) (k : String) (d : ParamValue) : ParamValue :=
  (paramLookup ps k).getD d

/-- `event.details.get(f)` where the key `f` is itself a generic parameter
value: a non-string key is never present in the string-keyed `details`
dict, so it looks up nothing. -/
def detailsGetP (d : List (String × String)) : ParamValue → Option String
  | .str k => detailsGet d k
  | _ => none

/-- Python `==` between an optional string (a `details.get` result) and a
generic parameter value: equal exactly when the lookup produced a string
equal to a string-valued parameter; `None` and non-string scalars never
equal a looked-up string. -/
def optValEq (o : Option String) (v : ParamValue) : Bool :=
  match o, v with
  | some s, .str t => s == t
  | _, _ => false

/-- The numeric value of a nonempty all-digit character list. -/
def digitsToNat (cs : List Char) : ℕ :=
  cs.foldl (fun a c => a * 10 + (c.toNat - 48)) 0

/-- Parse the digit part of a Python integer literal: nonempty, all digits.
(Python `int(str)` additionally strips whitespace and underscores; those
frills are not modelled.) -/
def parseDigits (cs : List Char) : Option ℕ :=
  if cs = [] then none
  else if cs.all (fun c => c.isDigit) then some (digitsToNat cs) else none

/-- Python `int(s)` on a string: optional sign followed by digits, else a
`ValueError` (`none`). -/
def parseInt (s : String) : Option ℤ :=
  match s.data with
  | '-' :: rest => (parseDigits rest).map (fun n => -(n : ℤ))
  | '+' :: rest => (parseDigits rest).map (fun n => (n : ℤ))
  | cs => (parseDigits cs).map (fun n => (n : ℤ))

/-- Python `int(float)` truncates toward zero. -/
def pyTrunc (q : ℚ) : ℤ :=
  if q < 0 then ⌈q⌉ else ⌊q⌋

/-- Python `int(v)` applied to a generic parameter value: ints pass
through, floats truncate toward zero, strings parse or raise (`none`). -/
def pyInt : ParamValue → Option ℤ
  | .int n => some n
  | .float q => some (pyTrunc q)
  | .str s => parseInt s

/-- Parse the fractional part of a decimal literal. -/
def parseFrac (cs : List Char) : Option ℚ :=
  if cs.all (fun c => c.isDigit) then
    some ((digitsToNat cs : ℚ) / (10 : ℚ) ^ cs.length)
  else none

/-- Parse an unsigned decimal literal `digits` or `digits.digits`.
(A simplified model of Python's float literal grammar.) -/
def parseUnsignedFloat (cs : List Char) : Option ℚ :=
  match cs.splitOn '.' with
  | [whole] => (parseDigits whole).map (fun n => (n : ℚ))
  | [whole, frac] =>
    match parseDigits whole, parseFrac frac with
    | some n, some f => some ((n : ℚ) + f)
    | _, _ => none
  | _ => none

/-- Python `float(s)` on a string (simplified decimal grammar). -/
def parseFloat (s : String) : Option ℚ :=
  match s.data with
  | '-' :: rest => (parseUnsignedFloat rest).map (fun q => -q)
  | '+' :: rest => (parseUnsignedFloat rest).map (fun q => q)
  | cs => (parseUnsignedFloat cs).map (fun q => q)

/-- Python `float(v)` applied to a generic parameter value. -/
def pyFloat : ParamValue → Option ℚ
  | .int n => some ((n : ℚ))
  | .float q => some q
  | .str s => parseFloat s

/-- The per-character occurrence counts of a string, in first-occurrence
order — the values of the `counts` dict built by `_shannon_entropy`. -/
def charCounts (s : String) : List ℕ :=
  s.data.dedup.map (fun c => s.data.count c)

/-- The product `∏ k^k` over the character counts `k` of `s`. -/
def entropyNum (s : String) : ℕ :=
  (charCounts s).foldl (fun a k => a * k ^ k) 1

/-- Decides, in exact arithmetic, whether the Shannon entropy of `s` — the
quantity `_shannon_entropy` computes, `-Σ (k/n)·log2 (k/n)` over the
character counts `k` of `s` with `n = s.length` — is at least the rational
threshold `E`.  Derivation: `n · entropy = log2 (n^n / ∏ k^k)`, so for
`E = p/q` with `p ≥ 0 < q`, `entropy ≥ E ↔ (n^n)^q ≥ 2^(p·n) · (∏ k^k)^q`;
for `p < 0` the inequality always holds since entropy is nonnegative.
(The Python code evaluates the comparison in floating point; this is the
exact-arithmetic reading of the same comparison.) -/
def entropyGe (s : String) (E : ℚ) : Bool :=
  let n := s.length
  if n = 0 then decide (E ≤ 0)
  else if E.num < 0 then true
  else decide (2 ^ (E.num.toNat * n) * entropyNum s ^ E.den ≤ (n ^ n) ^ E.den)

/-- Strict version of `entropyGe`: decides `shannon_entropy s > E` in
exact arithmetic (used only to state spec claims phrased with a strict
comparison; the code itself compares with `>=`). -/
def entropyGt (s : String) (E : ℚ) : Bool :=
  let n := s.length
  if n = 0 then decide (E < 0)
  else if E.num < 0 then true
  else decide (2 ^ (E.num.toNat * n) * entropyNum s ^ E.den < (n ^ n) ^ E.den)

/-- A window bucket: the `Deque[Event]` for one grouping key, front first. -/
abbrev Bucket := List Event

/-- The per-rule partition of the window store: grouping key → bucket. -/
abbrev RuleState := String → Bucket

/-- The empty per-rule window state. -/
def RuleState.empty : RuleState := fun _ => []

/-- Replace one key's bucket. -/
def RuleState.update (st : RuleState) (k : String) (b : Bucket) : RuleState :=
  fun k2 => if k2 = k then b else st k2

/-- `_evict_old`: pop events from the front of the bucket while they are
older than `current_ts - timedelta(minutes = window_minutes)`. -/
def evict_old (bucket : Bucket) (current_ts : ℤ) (window_minutes : ℤ) : Bucket :=
  bucket.dropWhile (fun e => decide (e.timestamp < current_ts - 60 * window_minutes))

/-- The alert built by `_handle_failed_login` when the threshold is met. -/
def failedLoginAlert (rule : DetectionRule) (key : String) (bucket : Bucket)
    (window_minutes : ℤ) (event : Event) (now : ℤ) : Alert :=
  { id := rule.id ++ ":" ++ key ++ ":" ++ toString event.timestamp
    created_at := now
    title := rule.name ++ " for " ++ key
    description := "Detected " ++ toString bucket.length ++ " failed logins for " ++ key
      ++ " within " ++ toString window_minutes ++ " minutes."
    priority := rule.severity
    events := bucket
    remediation := rule.remediation }

/-- `_handle_failed_login`: the threshold-count detector.  Parameter
coercions happen first (they run before the filters in the Python body and
raise eagerly), then category and match filters, then append + evict on
the grouping key's bucket, then the threshold check with clear-on-alert. -/
def handle_failed_login (st : RuleState) (rule : DetectionRule) (event : Event) (now : ℤ) :
    Except String (List Alert × RuleState) :=
  let ps := rule.parameters
  let category := paramGetD ps "event_category" (.str "auth")
  let match_field := paramGetD ps "match_field" (.str "result")
  let match_value := paramGetD ps "match_value" (.str "failed")
  let group_by := paramGetD ps "group_by" (.str "username")
  match pyInt (paramGetD ps "threshold" (.int 5)),
        pyInt (paramGetD ps "window_minutes" (.int 10)) with
  | none, _ => .error "invalid literal for int(): threshold"
  | some _, none => .error "invalid literal for int(): window_minutes"
  | some threshold, some window_minutes =>
    if ParamValue.str event.category ≠ category then .ok ([], st)
    else if ¬ optValEq (detailsGetP event.details match_field) match_value then .ok ([], st)
    else
      let key := (detailsGetP event.details group_by).getD "unknown"
      let bucket := evict_old (st key ++ [event]) event.timestamp window_minutes
      if threshold ≤ (bucket.length : ℤ) then
        .ok ([failedLoginAlert rule key bucket window_minutes event now],
             RuleState.update st key [])
      else .ok ([], RuleState.update st key bucket)

/-- Python `str()` of a generic parameter value, as used by f-string
interpolation in alert text. -/
def pyStr : ParamValue → String
  | .int n => toString n
  | .float q => toString q
  | .str s => s

/-- The number of distinct values of the `distinct_field` across a bucket —
`len({e.details.get(distinct_field) for e in bucket})`.  A missing field
yields `none`, which is itself an element of the set. -/
def distinctCount (bucket : Bucket) (distinct_field : ParamValue) : ℕ :=
  ((bucket.map (fun e => detailsGetP e.details distinct_field)).dedup).length

/-- The alert built by `_handle_port_scan` when the threshold is met. -/
def portScanAlert (rule : DetectionRule) (key : String) (bucket : Bucket)
    (distinct_field : ParamValue) (uniqueCount : ℕ) (event : Event) (now : ℤ) : Alert :=
  { id := rule.id ++ ":" ++ key ++ ":" ++ toString event.timestamp
    created_at := now
    title := rule.name ++ " from " ++ key
    description := "Observed potential port scan with " ++ toString uniqueCount
      ++ " unique " ++ pyStr distinct_field ++ " values."
    priority := rule.severity
    events := bucket
    remediation := rule.remediation }

/-- `_handle_port_scan`: the distinct-value detector.  Note: it filters on
the event category only; no `match_field` / `match_value` filter exists in
its body. -/
def handle_port_scan (st : RuleState) (rule : DetectionRule) (event : Event) (now : ℤ) :
    Except String (List Alert × RuleState) :=
  let ps := rule.parameters
  let category := paramGetD ps "event_category" (.str "network")
  let group_by := paramGetD ps "group_by" (.str "src_ip")
  let distinct_field := paramGetD ps "distinct_field" (.str "dest_port")
  match pyInt (paramGetD ps "threshold" (.int 15)),
        pyInt (paramGetD ps "window_minutes" (.int 5)) with
  | none, _ => .error "invalid literal for int(): threshold"
  | some _, none => .error "invalid literal for int(): window_minutes"
  | some threshold, some window_minutes =>
    if ParamValue.str event.category ≠ category then .ok ([], st)
    else
      let key := (detailsGetP event.details group_by).getD "unknown"
      let bucket := evict_old (st key ++ [event]) event.timestamp window_minutes
      let uniqueCount := distinctCount bucket distinct_field
      if threshold ≤ (uniqueCount : ℤ) then
        .ok ([portScanAlert rule key bucket distinct_field uniqueCount event now],
             RuleState.update st key [])
      else .ok ([], RuleState.update st key bucket)

/-- The alert built by `_handle_dns_anomaly` when a domain is suspicious. -/
def dnsAlert (rule : DetectionRule) (domain : String) (event : Event) (now : ℤ) : Alert :=
  { id := rule.id ++ ":" ++ domain ++ ":" ++ toString event.timestamp
    created_at := now
    title := rule.name ++ " - suspicious domain " ++ domain
    description := "Detected DNS query that may indicate tunneling activity due to long or high entropy domain name."
    priority := rule.severity
    events := [event]
    remediation := rule.remediation }

/-- `_handle_dns_anomaly`: the anomaly-scoring detector.  Coercions first
(eager), then the category filter, then the target-field (`query`) guard
(`if not domain` — absent or empty), then the `len >= length_threshold or
entropy >= entropy_threshold` test.  It never touches the window state. -/
def handle_dns_anomaly (st : RuleState) (rule : DetectionRule) (event : Event) (now : ℤ) :
    Except String (List Alert × RuleState) :=
  let ps := rule.parameters
  let category := paramGetD ps "event_category" (.str "dns")
  match pyInt (paramGetD ps "length_threshold" (.int 45)),
        pyFloat (paramGetD ps "entropy_threshold" (.float (mkRat 7 2))) with
  | none, _ => .error "invalid literal for int(): length_threshold"
  | some _, none => .error "could not convert to float: entropy_threshold"
  | some length_threshold, some entropy_threshold =>
    if ParamValue.str event.category ≠ category then .ok ([], st)
    else
      match detailsGet event.details "query" with
      | none => .ok ([], st)
      | some domain =>
        if domain = "" then .ok ([], st)
        else if length_threshold ≤ (domain.length : ℤ) ∨ entropyGe domain entropy_threshold = true then
          .ok ([dnsAlert rule domain event now], st)
        else .ok ([], st)

/-- The handler signature shared by the three detectors. -/
abbrev Handler :=
  RuleState → DetectionRule → Event → ℤ → Except String (List Alert × RuleState)

/-- `_HANDLERS`: the registry mapping a `rule_type` string to its
detection algorithm; `.get` on it yields `none` for unknown types. -/
def handlers (rule_type : String) : Option Handler :=
  if rule_type = "failed_login_threshold" then some handle_failed_login
  else if rule_type = "port_scan" then some handle_port_scan
  else if rule_type = "dns_anomaly" then some handle_dns_anomaly
  else none

/-- The whole window store: rule id → grouping key → bucket
(`self.state` in `DetectionEngine`). -/
abbrev EngineState := String → RuleState

/-- The window store of a freshly constructed engine. -/
def EngineState.empty : EngineState := fun _ => RuleState.empty

/-- Replace one rule id's partition of the window store. -/
def EngineState.update (st : EngineState) (rid : String) (rs : RuleState) : EngineState :=
  fun i => if i = rid then rs else st i

/-- One (event, rule) step of `DetectionEngine.process`: look the rule's
handler up by `rule_type`; an unknown type is skipped (`continue`);
otherwise run the handler on the rule's own partition `state[rule.id]`
and write the mutated partition back. -/
def ruleStep (st : EngineState) (rule : DetectionRule) (event : Event) (now : ℤ) :
    Except String (List Alert × EngineState) :=
  match handlers rule.rule_type with
  | none => .ok ([], st)
  | some h =>
    (h (st rule.id) rule event now).map
      (fun p => (p.1, EngineState.update st rule.id p.2))

/-- The inner loop of `DetectionEngine.process`: one event against every
retained rule, in order, concatenating the alerts each handler yields. -/
def processEventRules (st : EngineState) (rules : List DetectionRule) (event : Event)
    (now : ℤ) : Except String (List Alert × EngineState) :=
  match rules with
  | [] => .ok ([], st)
  | r :: rs => do
    let p1 ← ruleStep st r event now
    let p2 ← processEventRules p1.2 rs event now
    return (p1.1 ++ p2.1, p2.2)

/-- The outer loop of `DetectionEngine.process`: fold over the event
sequence, threading the window store and concatenating emitted alerts.
(The Python generator is lazy; this is its strict unrolling — an
exception raised mid-iteration becomes an `Except.error` for the run.) -/
def processEvents (st : EngineState) (rules : List DetectionRule) (events : List Event)
    (now : ℤ) : Except String (List Alert × EngineState) :=
  match events with
  | [] => .ok ([], st)
  | e :: es => do
    let p1 ← processEventRules st rules e now
    let p2 ← processEvents p1.2 rules es now
    return (p1.1 ++ p2.1, p2.2)

/-- `DetectionEngine.__init__`: retain only enabled rules, in order. -/
def enabledRules (rules : List DetectionRule) : List DetectionRule :=
  rules.filter (fun r => r.enabled)

/-- A full engine run: construct the engine over `rules` (which filters to
the enabled ones and starts from an empty window store) and process the
whole event sequence. -/
def DetectionEngine.process (rules : List DetectionRule) (events : List Event) (now : ℤ) :
    Except String (List Alert × EngineState) :=
  processEvents EngineState.empty (enabledRules rules) events now

/-! ### Basic facts about the window store and eviction -/

theorem rsUpdate_apply_same (st : RuleState) (k : String) (b : Bucket) :
    RuleState.update st k b k = b := by
  simp [RuleState.update]

theorem rsUpdate_apply_other (st : RuleState) (k k2 : String) (b : Bucket)
    (h : k2 ≠ k) : RuleState.update st k b k2 = st k2 := by
  simp [RuleState.update, h]

theorem rsUpdate_self (st : RuleState) (k : String) :
    RuleState.update st k (st k) = st := by
  funext k2
  by_cases h : k2 = k <;> simp [RuleState.update, h]

theorem rsUpdate_update (st : RuleState) (k : String) (b1 b2 : Bucket) :
    RuleState.update (RuleState.update st k b1) k b2 = RuleState.update st k b2 := by
  funext k2
  by_cases h : k2 = k <;> simp [RuleState.update, h]

theorem esUpdate_apply_same (st : EngineState) (rid : String) (rs : RuleState) :
    EngineState.update st rid rs rid = rs := by
  simp [EngineState.update]

theorem esUpdate_apply_other (st : EngineState) (rid i : String) (rs : RuleState)
    (h : i ≠ rid) : EngineState.update st rid rs i = st i := by
  simp [EngineState.update, h]

theorem esUpdate_self (st : EngineState) (rid : String) :
    EngineState.update st rid (st rid) = st := by
  funext i
  by_cases h : i = rid <;> simp [EngineState.update, h]

theorem esUpdate_update (st : EngineState) (rid : String) (rs1 rs2 : RuleState) :
    EngineState.update (EngineState.update st rid rs1) rid rs2 =
      EngineState.update st rid rs2 := by
  funext i
  by_cases h : i = rid <;> simp [EngineState.update, h]

theorem evict_old_sublist (b : Bucket) (t W : ℤ) : (evict_old b t W).Sublist b :=
  List.dropWhile_sublist _

theorem mem_of_mem_evict_old {b : Bucket} {t W : ℤ} {e : Event}
    (h : e ∈ evict_old b t W) : e ∈ b :=
  (evict_old_sublist b t W).subset h

theorem length_evict_old_le (b : Bucket) (t W : ℤ) :
    (evict_old b t W).length ≤ b.length :=
  (evict_old_sublist b t W).length_le

/-- A list on which the drop predicate fails everywhere is not touched by
`dropWhile`. -/
theorem dropWhile_eq_self_of_all {α : Type} (p : α → Bool) :
    ∀ l : List α, (∀ x ∈ l, p x = false) → l.dropWhile p = l := by
  intro l h
  cases l with
  | nil => rfl
  | cons a t => simp [List.dropWhile, h a (by simp)]

theorem evict_old_eq_self {b : Bucket} {t W : ℤ}
    (h : ∀ e ∈ b, t - 60 * W ≤ e.timestamp) : evict_old b t W = b := by
  apply dropWhile_eq_self_of_all
  intro x hx
  simp only [decide_eq_false_iff_not, not_lt]
  exact h x hx

/-- An element on which the drop predicate fails survives `dropWhile`. -/
theorem mem_dropWhile_of_mem {α : Type} (p : α → Bool) :
    ∀ (l : List α) (x : α), x ∈ l → p x = false → x ∈ l.dropWhile p := by
  intro l
  induction l with
  | nil => intro x hx; simp at hx
  | cons a t ih =>
    intro x hx hpx
    rcases List.mem_cons.mp hx with rfl | hxt
    · simp [List.dropWhile, hpx]
    · by_cases hpa : p a
      · simpa [List.dropWhile, hpa] using ih x hxt hpx
      · simp [List.dropWhile, hpa]
        exact Or.inr hxt

/-! ### Ordering and window invariants -/

/-- Events in non-decreasing timestamp order. -/
def tsSorted (b : List Event) : Prop :=
  b.Pairwise (fun a c => a.timestamp ≤ c.timestamp)

/-- Every event of the bucket lies within `W` minutes of every other (in
particular of the latest one): the spec's window invariant, stated
symmetrically. -/
def withinWindow (W : ℤ) (b : Bucket) : Prop :=
  ∀ e ∈ b, ∀ f ∈ b, f.timestamp - 60 * W ≤ e.timestamp

instance (W : ℤ) (b : Bucket) : Decidable (withinWindow W b) := by
  unfold withinWindow
  infer_instance

/-- All bucket timestamps are at most `t`. -/
def boundedBy (t : ℤ) (b : Bucket) : Prop :=
  ∀ e ∈ b, e.timestamp ≤ t

/-- The most recent timestamp in a bucket (`latest_timestamp_in_bucket`;
`0` for an empty bucket, which no claim inspects). -/
def latestTimestamp : List Event → ℤ
  | [] => 0
  | [e] => e.timestamp
  | e :: f :: es => max e.timestamp (latestTimestamp (f :: es))

/-- The latest timestamp of a nonempty bucket is attained by a member. -/
theorem latestTimestamp_mem : ∀ (b : List Event), b ≠ [] →
    ∃ f ∈ b, f.timestamp = latestTimestamp b := by
  intro b
  induction b with
  | nil => intro h; exact absurd rfl h
  | cons e t ih =>
    intro _
    cases t with
    | nil => exact ⟨e, by simp, by simp [latestTimestamp]⟩
    | cons f es =>
      rcases ih (by simp) with ⟨g, hg, hgts⟩
      rcases le_total e.timestamp (latestTimestamp (f :: es)) with hle | hle
      · exact ⟨g, by simp [List.mem_cons.mp hg], by
          simp [latestTimestamp, max_eq_right hle, hgts]⟩
      · exact ⟨e, by simp, by simp [latestTimestamp, max_eq_left hle]⟩

/-- The `window_minutes` value a rule's algorithm would use for eviction:
`int(params.get("window_minutes", default))` with the per-algorithm
default; `none` when the rule's algorithm keeps no window or the
parameter does not coerce. -/
def ruleWindowMinutes (r : DetectionRule) : Option ℤ :=
  if r.rule_type = "failed_login_threshold" then
    pyInt (paramGetD r.parameters "window_minutes" (.int 10))
  else if r.rule_type = "port_scan" then
    pyInt (paramGetD r.parameters "window_minutes" (.int 5))
  else none

/-- The invariant carried across engine steps for the eviction claim:
every bucket is time-sorted, bounded by the stream position `t`, and
within the window of every rule owning its partition. -/
def BucketsOk (rules : List DetectionRule) (t : ℤ) (st : EngineState) : Prop :=
  ∀ rid key,
    tsSorted (st rid key) ∧ boundedBy t (st rid key) ∧
    ∀ r ∈ rules, r.id = rid → ∀ W, ruleWindowMinutes r = some W →
      withinWindow W (st rid key)

theorem BucketsOk_mono {rules : List DetectionRule} {t t' : ℤ} {st : EngineState}
    (h : BucketsOk rules t st) (hle : t ≤ t') : BucketsOk rules t' st := by
  intro rid key
  rcases h rid key with ⟨h1, h2, h3⟩
  exact ⟨h1, fun e he => le_trans (h2 e he) hle, h3⟩

theorem BucketsOk_empty (rules : List DetectionRule) (t : ℤ) :
    BucketsOk rules t EngineState.empty := by
  intro rid key
  refine ⟨List.Pairwise.nil, ?_, ?_⟩
  · intro e he; simp [EngineState.empty, RuleState.empty] at he
  · intro r _ _ W _ e he; simp [EngineState.empty, RuleState.empty] at he

/-! ### Case analyses of the handlers -/

theorem handle_failed_login_state {st : RuleState} {r : DetectionRule} {e : Event} {now : ℤ}
    {as : List Alert} {st' : RuleState}
    (h : handle_failed_login st r e now = .ok (as, st')) :
    ∃ W, pyInt (paramGetD r.parameters "window_minutes" (.int 10)) = some W ∧
      (st' = st ∨ ∃ key, st' = RuleState.update st key [] ∨
        st' = RuleState.update st key (evict_old (st key ++ [e]) e.timestamp W)) := by
  rcases hT : pyInt (paramGetD r.parameters "threshold" (.int 5)) with _ | T <;>
    rcases hW : pyInt (paramGetD r.parameters "window_minutes" (.int 10)) with _ | W <;>
    simp only [handle_failed_login, hT, hW] at h <;>
    try exact Except.noConfusion h
  refine ⟨W, rfl, ?_⟩
  split_ifs at h <;>
    simp only [Except.ok.injEq, Prod.mk.injEq] at h
  · exact Or.inl h.2.symm
  · exact Or.inr ⟨_, Or.inl h.2.symm⟩
  · exact Or.inr ⟨_, Or.inr h.2.symm⟩
  · exact Or.inl h.2.symm

theorem handle_port_scan_state {st : RuleState} {r : DetectionRule} {e : Event} {now : ℤ}
    {as : List Alert} {st' : RuleState}
    (h : handle_port_scan st r e now = .ok (as, st')) :
    ∃ W, pyInt (paramGetD r.parameters "window_minutes" (.int 5)) = some W ∧
      (st' = st ∨ ∃ key, st' = RuleState.update st key [] ∨
        st' = RuleState.update st key (evict_old (st key ++ [e]) e.timestamp W)) := by
  rcases hT : pyInt (paramGetD r.parameters "threshold" (.int 15)) with _ | T <;>
    rcases hW : pyInt (paramGetD r.parameters "window_minutes" (.int 5)) with _ | W <;>
    simp only [handle_port_scan, hT, hW] at h <;>
    try exact Except.noConfusion h
  refine ⟨W, rfl, ?_⟩
  split_ifs at h <;>
    simp only [Except.ok.injEq, Prod.mk.injEq] at h
  · exact Or.inl h.2.symm
  · exact Or.inr ⟨_, Or.inl h.2.symm⟩
  · exact Or.inr ⟨_, Or.inr h.2.symm⟩

theorem handle_dns_anomaly_state {st : RuleState} {r : DetectionRule} {e : Event} {now : ℤ}
    {as : List Alert} {st' : RuleState}
    (h : handle_dns_anomaly st r e now = .ok (as, st')) : st' = st := by
  rcases hL : pyInt (paramGetD r.parameters "length_threshold" (.int 45)) with _ | L <;>
    rcases hE : pyFloat (paramGetD r.parameters "entropy_threshold" (.float (mkRat 7 2))) with _ | E <;>
    simp only [handle_dns_anomaly, hL, hE] at h <;>
    try exact Except.noConfusion h
  split_ifs at h with hc
  · simp only [Except.ok.injEq, Prod.mk.injEq] at h
    exact h.2.symm
  · rcases hq : detailsGet e.details "query" with _ | d <;> simp only [hq] at h
    · simp only [Except.ok.injEq, Prod.mk.injEq] at h
      exact h.2.symm
    · split_ifs at h <;> simp only [Except.ok.injEq, Prod.mk.injEq] at h <;>
        exact h.2.symm

/-- One engine step for one rule: all other partitions of the window store
are untouched, and the rule's own partition is either untouched or has a
single key's bucket replaced by `[]` or by the evicted append, with the
eviction horizon taken from the rule's own `window_minutes` parameter. -/
theorem ruleStep_state {st : EngineState} {r : DetectionRule} {e : Event} {now : ℤ}
    {as : List Alert} {st' : EngineState}
    (h : ruleStep st r e now = .ok (as, st')) :
    (∀ rid, rid ≠ r.id → st' rid = st rid) ∧
      (st' r.id = st r.id ∨
        ∃ W key, ruleWindowMinutes r = some W ∧
          (st' r.id = RuleState.update (st r.id) key [] ∨
            st' r.id = RuleState.update (st r.id) key
              (evict_old (st r.id key ++ [e]) e.timestamp W))) := by
  unfold ruleStep at h
  rcases hh : handlers r.rule_type with _ | hd
  · simp only [hh, Except.ok.injEq] at h
    cases h.symm
    exact ⟨fun rid _ => rfl, Or.inl rfl⟩
  · simp only [hh] at h
    rcases hrun : hd (st r.id) r e now with msg | p
    · rw [hrun] at h; exact Except.noConfusion h
    · rw [hrun] at h
      simp only [Except.map, Except.ok.injEq] at h
      cases h.symm
      refine ⟨fun rid hrid => esUpdate_apply_other st r.id rid p.2 hrid, ?_⟩
      rw [esUpdate_apply_same]
      unfold handlers at hh
      unfold ruleWindowMinutes
      split_ifs at hh with h1 h2 h3
      · cases hh
        rcases handle_failed_login_state hrun with ⟨W, hW, hcases⟩
        rcases hcases with h' | ⟨key, h'⟩
        · exact Or.inl h'
        · exact Or.inr ⟨W, key, by simp [h1, hW], h'⟩
      · cases hh
        rcases handle_port_scan_state hrun with ⟨W, hW, hcases⟩
        rcases hcases with h' | ⟨key, h'⟩
        · exact Or.inl h'
        · exact Or.inr ⟨W, key, by simp [h1, h2, hW], h'⟩
      · cases hh
        exact Or.inl (handle_dns_anomaly_state hrun)

/-! ### Preservation of the window invariant (claim C5 machinery) -/

/-- In a time-sorted list, everything that survives the age-based
`dropWhile` is at least the cutoff. -/
theorem sorted_dropWhile_ge {c : ℤ} :
    ∀ l : List Event, tsSorted l →
      ∀ x ∈ l.dropWhile (fun e => decide (e.timestamp < c)), c ≤ x.timestamp := by
  intro l
  induction l with
  | nil => intro _ x hx; simp at hx
  | cons a t ih =>
    intro hs x hx
    rcases List.pairwise_cons.mp hs with ⟨ha, ht⟩
    by_cases hpa : a.timestamp < c
    · rw [List.dropWhile_cons_of_pos (by simpa using hpa)] at hx
      exact ih ht x hx
    · rw [List.dropWhile_cons_of_neg (by simpa using hpa)] at hx
      rcases List.mem_cons.mp hx with rfl | hxt
      · exact le_of_not_lt hpa
      · exact le_trans (le_of_not_lt hpa) (ha x hxt)

/-- Events surviving eviction from a sorted bucket are within the horizon
anchored at the evicting timestamp. -/
theorem evict_old_ge {b : Bucket} {t W : ℤ} (hs : tsSorted b) :
    ∀ x ∈ evict_old b t W, t - 60 * W ≤ x.timestamp :=
  sorted_dropWhile_ge b hs

/-- An evicted append of an in-order event onto a sorted, bounded bucket
is again sorted, bounded by the new event's timestamp, and within the
window. -/
theorem bucket_step_ok {b : Bucket} {e : Event} {t W : ℤ}
    (hs : tsSorted b) (hb : boundedBy t b) (ht : t ≤ e.timestamp) :
    tsSorted (evict_old (b ++ [e]) e.timestamp W) ∧
      boundedBy e.timestamp (evict_old (b ++ [e]) e.timestamp W) ∧
      withinWindow W (evict_old (b ++ [e]) e.timestamp W) := by
  have hsorted : tsSorted (b ++ [e]) := by
    unfold tsSorted at hs ⊢
    rw [List.pairwise_append]
    refine ⟨hs, List.pairwise_singleton _ _, ?_⟩
    intro x hx y hy
    rw [List.mem_singleton] at hy
    subst hy
    exact le_trans (hb x hx) ht
  have hsub := evict_old_sublist (b ++ [e]) e.timestamp W
  have hsorted' : tsSorted (evict_old (b ++ [e]) e.timestamp W) := hsorted.sublist hsub
  have hbound : boundedBy e.timestamp (evict_old (b ++ [e]) e.timestamp W) := by
    intro x hx
    rcases List.mem_append.mp (hsub.subset hx) with hxb | hxe
    · exact le_trans (hb x hxb) ht
    · rw [List.mem_singleton] at hxe; subst hxe; exact le_rfl
  refine ⟨hsorted', hbound, ?_⟩
  intro x hx f hf
  have h1 : e.timestamp - 60 * W ≤ x.timestamp := evict_old_ge hsorted x hx
  have h2 : f.timestamp ≤ e.timestamp := hbound f hf
  omega

/-- Window consistency across a rule set: rules sharing an id agree on the
eviction horizon (holds in particular when ids are unique, the shape the
spec's data model prescribes). -/
def ConsistentWindows (rules : List DetectionRule) : Prop :=
  ∀ r1 ∈ rules, ∀ r2 ∈ rules, r1.id = r2.id →
    ruleWindowMinutes r1 = ruleWindowMinutes r2

/-- `Except.ok` on the left of a bind reduces. -/
theorem exceptOkBind {ε α β : Type} (a : α) (f : α → Except ε β) :
    (Except.ok a >>= f) = f a := rfl

/-- `Except.error` on the left of a bind propagates. -/
theorem exceptErrorBind {ε α β : Type} (msg : ε) (f : α → Except ε β) :
    ((Except.error msg : Except ε α) >>= f) = Except.error msg := rfl

/-- `pure` for `Except` is `Except.ok`. -/
theorem exceptPureEq {ε α : Type} (a : α) :
    (pure a : Except ε α) = Except.ok a := rfl

theorem ruleStep_preserves {rules : List DetectionRule} {t : ℤ} {st : EngineState}
    {r : DetectionRule} {e : Event} {now : ℤ} {as : List Alert} {st' : EngineState}
    (hcons : ConsistentWindows rules) (hr : r ∈ rules)
    (hinv : BucketsOk rules t st) (ht : t ≤ e.timestamp)
    (h : ruleStep st r e now = .ok (as, st')) :
    BucketsOk rules e.timestamp st' := by
  rcases ruleStep_state h with ⟨hother, hown⟩
  intro rid key
  by_cases hrid : rid = r.id
  case neg =>
    rw [hother rid hrid]
    exact BucketsOk_mono hinv ht rid key
  case pos =>
    subst hrid
    rcases hown with hsame | ⟨W, key', hW, hupd⟩
    · rw [hsame]
      exact BucketsOk_mono hinv ht r.id key
    · by_cases hkey : key = key'
      case neg =>
        have happ : st' r.id key = st r.id key := by
          rcases hupd with h' | h' <;>
            rw [h', rsUpdate_apply_other _ _ _ _ hkey]
        rw [happ]
        exact BucketsOk_mono hinv ht r.id key
      case pos =>
        subst hkey
        rcases hinv r.id key with ⟨hs, hb, _⟩
        rcases hupd with h' | h'
        · rw [h', rsUpdate_apply_same]
          refine ⟨List.Pairwise.nil, ?_, ?_⟩
          · intro x hx; simp at hx
          · intro r2 _ _ W2 _ x hx; simp at hx
        · rw [h', rsUpdate_apply_same]
          rcases bucket_step_ok (W := W) hs hb ht with ⟨hs', hb', hw'⟩
          refine ⟨hs', hb', ?_⟩
          intro r2 hr2 hid W2 hW2
          have : ruleWindowMinutes r2 = ruleWindowMinutes r := hcons r2 hr2 r hr hid
          rw [this, hW] at hW2
          cases hW2
          exact hw'

theorem processEventRules_preserves {rules : List DetectionRule} {e : Event}
    {now : ℤ} (hcons : ConsistentWindows rules) :
    ∀ (l : List DetectionRule) (st : EngineState) (as : List Alert) (st' : EngineState),
      (∀ r ∈ l, r ∈ rules) → BucketsOk rules e.timestamp st →
      processEventRules st l e now = .ok (as, st') →
      BucketsOk rules e.timestamp st' := by
  intro l
  induction l with
  | nil =>
    intro st as st' _ hinv h
    simp only [processEventRules, Except.ok.injEq] at h
    cases h.symm
    exact hinv
  | cons r rs ih =>
    intro st as st' hl hinv h
    simp only [processEventRules] at h
    rcases h1 : ruleStep st r e now with msg | p1
    · rw [h1] at h; exact Except.noConfusion h
    · rw [h1, exceptOkBind] at h
      rcases h2 : processEventRules p1.2 rs e now with msg | p2
      · rw [h2, exceptErrorBind] at h
        exact Except.noConfusion h
      · rw [h2, exceptOkBind, exceptPureEq] at h
        have h' := Except.ok.inj h
        injection h' with ha hst
        subst hst
        have hstep : BucketsOk rules e.timestamp p1.2 :=
          ruleStep_preserves hcons (hl r (by simp)) hinv le_rfl (by rw [h1])
        exact ih p1.2 p2.1 p2.2 (fun x hx => hl x (by simp [hx])) hstep h2

theorem processEvents_preserves {rules : List DetectionRule} {now : ℤ}
    (hcons : ConsistentWindows rules) :
    ∀ (events : List Event) (t : ℤ) (st : EngineState) (as : List Alert)
      (st' : EngineState),
      BucketsOk rules t st → (∀ x ∈ events, t ≤ x.timestamp) →
      events.Pairwise (fun a b => a.timestamp ≤ b.timestamp) →
      processEvents st rules events now = .ok (as, st') →
      ∃ t', BucketsOk rules t' st' := by
  intro events
  induction events with
  | nil =>
    intro t st as st' hinv _ _ h
    simp only [processEvents, Except.ok.injEq] at h
    cases h.symm
    exact ⟨t, hinv⟩
  | cons e es ih =>
    intro t st as st' hinv hts hsorted h
    simp only [processEvents] at h
    rcases h1 : processEventRules st rules e now with msg | p1
    · rw [h1] at h; exact Except.noConfusion h
    · rw [h1, exceptOkBind] at h
      rcases h2 : processEvents p1.2 rules es now with msg | p2
      · rw [h2, exceptErrorBind] at h
        exact Except.noConfusion h
      · rw [h2, exceptOkBind, exceptPureEq] at h
        injection Except.ok.inj h with ha hst
        subst hst
        rcases List.pairwise_cons.mp hsorted with ⟨he, hes⟩
        have hinv1 : BucketsOk rules e.timestamp st :=
          BucketsOk_mono hinv (hts e (by simp))
        have hstep : BucketsOk rules e.timestamp p1.2 :=
          processEventRules_preserves hcons rules st p1.1 p1.2
            (fun x hx => hx) hinv1 (by rw [h1])
        exact ih e.timestamp p1.2 p2.1 p2.2 hstep he hes h2

/-- C5: window eviction invariant.  For every enabled rule whose algorithm
keeps a window with horizon `W` minutes (`ruleWindowMinutes`), after the
engine processes any event sequence with non-decreasing timestamps, every
event remaining in any window bucket of that rule has a timestamp at least
`latest_timestamp_in_bucket - W` minutes (here in seconds:
`60 * W`).  Rules sharing an id must agree on the horizon
(`ConsistentWindows`; automatic when rule ids are unique as the data model
prescribes). -/
theorem c5_window_eviction
    (rules : List DetectionRule) (events : List Event) (now : ℤ)
    (hcons : ConsistentWindows (enabledRules rules))
    (hsorted : events.Pairwise (fun a b => a.timestamp ≤ b.timestamp))
    (as : List Alert) (stF : EngineState)
    (hrun : DetectionEngine.process rules events now = .ok (as, stF))
    (r : DetectionRule) (hr : r ∈ rules) (hen : r.enabled = true)
    (W : ℤ) (hW : ruleWindowMinutes r = some W)
    (key : String) (e : Event) (he : e ∈ stF r.id key) :
    latestTimestamp (stF r.id key) - 60 * W ≤ e.timestamp := by
  have hmem : r ∈ enabledRules rules := List.mem_filter.mpr ⟨hr, by simp [hen]⟩
  unfold DetectionEngine.process at hrun
  have hne : stF r.id key ≠ [] := by
    intro hnil
    rw [hnil] at he
    simp at he
  have hinv : ∃ t', BucketsOk (enabledRules rules) t' stF := by
    cases events with
    | nil =>
      simp only [processEvents, Except.ok.injEq] at hrun
      cases hrun.symm
      exact ⟨0, BucketsOk_empty _ _⟩
    | cons e0 es =>
      have hts : ∀ x ∈ e0 :: es, e0.timestamp ≤ x.timestamp := by
        intro x hx
        rcases List.mem_cons.mp hx with rfl | hxs
        · exact le_rfl
        · exact (List.pairwise_cons.mp hsorted).1 x hxs
      exact processEvents_preserves hcons (e0 :: es) e0.timestamp EngineState.empty
        as stF (BucketsOk_empty _ _) hts hsorted hrun
  rcases hinv with ⟨t', hinv⟩
  rcases hinv r.id key with ⟨_, _, hwB⟩
  have hwin : withinWindow W (stF r.id key) := hwB r hmem rfl W hW
  rcases latestTimestamp_mem (stF r.id key) hne with ⟨f, hf, hfts⟩
  rw [← hfts]
  have := hwin e he f hf
  omega

/-- A concrete threshold-count rule used by witnesses (threshold 5 is never
reached by the two-event runs below, so buckets stay populated). -/
def c5rule : DetectionRule :=
  { id := "r-c5", name := "Too many failed logins", rule_type := "failed_login_threshold"
    description := "", severity := "high", enabled := true
    parameters := [("threshold", .int 5), ("window_minutes", .int 10)]
    remediation := none }

/-- A matching auth event for `alice` at the given timestamp. -/
def c5event (t : ℤ) : Event :=
  { timestamp := t, source := "auth.log", category := "auth", severity := "low"
    details := [("result", "failed"), ("username", "alice")] }

/-- The window store after running `c5rule` on the two witness events. -/
def c5stF : EngineState :=
  EngineState.update
    (EngineState.update EngineState.empty "r-c5"
      (RuleState.update RuleState.empty "alice" [c5event 0]))
    "r-c5"
    (RuleState.update (RuleState.update RuleState.empty "alice" [c5event 0]) "alice"
      [c5event 0, c5event 300])

/-- Witness for C5 at a concrete two-event run. -/
theorem c5_window_eviction_witness :
    latestTimestamp (c5stF "r-c5" "alice") - 60 * 10 ≤ (c5event 0).timestamp := by
  apply c5_window_eviction [c5rule] [c5event 0, c5event 300] 0 ?hcons (by decide)
    [] c5stF rfl c5rule (by simp) rfl 10 rfl "alice" (c5event 0) (by decide)
  intro r1 h1 r2 h2 _
  have e1 : r1 = c5rule := by
    have := by simpa [enabledRules] using h1
    exact this.1
  have e2 : r2 = c5rule := by
    have := by simpa [enabledRules] using h2
    exact this.1
  rw [e1, e2]

/-! ### Bucket cardinality invariant of the threshold-count detector
(claim C10 machinery) -/

theorem handle_failed_login_count {st : RuleState} {r : DetectionRule} {e : Event}
    {now : ℤ} {as : List Alert} {st' : RuleState} {T : ℤ}
    (hT : pyInt (paramGetD r.parameters "threshold" (.int 5)) = some T)
    (hT1 : 1 ≤ T)
    (hlen : ∀ key, ((st key).length : ℤ) < T)
    (h : handle_failed_login st r e now = .ok (as, st')) :
    (∀ key, ((st' key).length : ℤ) < T) ∧ ∀ a ∈ as, (a.events.length : ℤ) = T := by
  rcases hW : pyInt (paramGetD r.parameters "window_minutes" (.int 10)) with _ | W <;>
    simp only [handle_failed_login, hT, hW] at h
  · exact Except.noConfusion h
  split_ifs at h with h1 h2 h3 <;>
    simp only [Except.ok.injEq, Prod.mk.injEq] at h <;>
    rcases h with ⟨has, hst⟩ <;> subst hst <;> subst has
  · exact ⟨hlen, by simp⟩
  · set key := (detailsGetP e.details
      (paramGetD r.parameters "group_by" (ParamValue.str "username"))).getD "unknown" with hkey
    have hble : (evict_old (st key ++ [e]) e.timestamp W).length ≤ (st key).length + 1 := by
      have := length_evict_old_le (st key ++ [e]) e.timestamp W
      simpa using this
    have hlt := hlen key
    have hbT : ((evict_old (st key ++ [e]) e.timestamp W).length : ℤ) = T := by
      have h3' := h3
      omega
    constructor
    · intro k
      by_cases hk : k = key
      · subst hk
        rw [rsUpdate_apply_same]
        simpa using hT1
      · rw [rsUpdate_apply_other _ _ _ _ hk]
        exact hlen k
    · intro a ha
      rw [List.mem_singleton] at ha
      subst ha
      simpa [failedLoginAlert] using hbT
  · set key := (detailsGetP e.details
      (paramGetD r.parameters "group_by" (ParamValue.str "username"))).getD "unknown" with hkey
    constructor
    · intro k
      by_cases hk : k = key
      · subst hk
        rw [rsUpdate_apply_same]
        omega
      · rw [rsUpdate_apply_other _ _ _ _ hk]
        exact hlen k
    · simp
  · exact ⟨hlen, by simp⟩

theorem processEventRules_singleton (st : EngineState) (r : DetectionRule) (e : Event)
    (now : ℤ) : processEventRules st [r] e now = ruleStep st r e now := by
  rcases h : ruleStep st r e now with msg | p
  · simp [processEventRules, h, exceptErrorBind]
  · simp [processEventRules, h, exceptOkBind, exceptPureEq]

theorem ruleStep_failed_login {st : EngineState} {r : DetectionRule} {e : Event} {now : ℤ}
    (htype : r.rule_type = "failed_login_threshold") :
    ruleStep st r e now = (handle_failed_login (st r.id) r e now).map
      (fun p => (p.1, EngineState.update st r.id p.2)) := by
  simp [ruleStep, handlers, htype]

theorem processEvents_failed_login_count {r : DetectionRule} {now : ℤ} {T : ℤ}
    (htype : r.rule_type = "failed_login_threshold")
    (hT : pyInt (paramGetD r.parameters "threshold" (.int 5)) = some T)
    (hT1 : 1 ≤ T) :
    ∀ (events : List Event) (st : EngineState) (as : List Alert) (stF : EngineState),
      (∀ key, ((st r.id key).length : ℤ) < T) →
      processEvents st [r] events now = .ok (as, stF) →
      (∀ key, ((stF r.id key).length : ℤ) < T) ∧
        ∀ a ∈ as, (a.events.length : ℤ) = T := by
  intro events
  induction events with
  | nil =>
    intro st as stF hlen h
    simp only [processEvents, Except.ok.injEq] at h
    cases h.symm
    exact ⟨hlen, by simp⟩
  | cons e es ih =>
    intro st as stF hlen h
    simp only [processEvents, processEventRules_singleton,
      ruleStep_failed_login htype] at h
    rcases h1 : handle_failed_login (st r.id) r e now with msg | p1
    · rw [h1] at h; exact Except.noConfusion h
    · rw [h1] at h
      simp only [Except.map] at h
      rw [exceptOkBind] at h
      rcases h2 : processEvents (EngineState.update st r.id p1.2) [r] es now with msg | p2
      · rw [h2, exceptErrorBind] at h
        exact Except.noConfusion h
      · rw [h2, exceptOkBind, exceptPureEq] at h
        injection Except.ok.inj h with halerts hst
        subst hst
        have hstep := handle_failed_login_count hT hT1 hlen
          (by rw [h1] : handle_failed_login (st r.id) r e now = .ok (p1.1, p1.2))
        have hlen1 : ∀ key, (((EngineState.update st r.id p1.2) r.id key).length : ℤ) < T := by
          intro key
          rw [esUpdate_apply_same]
          exact hstep.1 key
        have hrest := ih (EngineState.update st r.id p1.2) p2.1 p2.2 hlen1 h2
        refine ⟨hrest.1, ?_⟩
        intro a hmem
        rw [← halerts] at hmem
        rcases List.mem_append.mp hmem with h' | h'
        · exact hstep.2 a h'
        · exact hrest.2 a h'

/-- C10: between engine steps every window bucket of a threshold-count
rule with threshold `T ≥ 1` holds strictly fewer than `T` events
(`events` here is an arbitrary stream, so the claim holds after every
prefix), and consequently every alert the rule emits carries exactly `T`
events. -/
theorem c10_bucket_cardinality (r : DetectionRule) (T : ℤ)
    (htype : r.rule_type = "failed_login_threshold") (hen : r.enabled = true)
    (hT : pyInt (paramGetD r.parameters "threshold" (.int 5)) = some T)
    (hT1 : 1 ≤ T) (events : List Event) (now : ℤ) (as : List Alert)
    (stF : EngineState)
    (hrun : DetectionEngine.process [r] events now = .ok (as, stF)) :
    (∀ key, ((stF r.id key).length : ℤ) < T) ∧
      ∀ a ∈ as, (a.events.length : ℤ) = T := by
  have hr : enabledRules [r] = [r] := by
    simp [enabledRules, hen]
  rw [DetectionEngine.process, hr] at hrun
  exact processEvents_failed_login_count htype hT hT1 events EngineState.empty as stF
    (fun key => by simpa [EngineState.empty, RuleState.empty] using hT1) hrun

/-- Witness for C10: after the two-event run of `c5rule` (threshold 5) the
`alice` bucket holds 2 events, strictly below the threshold. -/
theorem c10_bucket_cardinality_witness :
    ((c5stF "r-c5" "alice").length : ℤ) < 5 := by
  exact (c10_bucket_cardinality c5rule 5 rfl rfl rfl (by decide)
    [c5event 0, c5event 300] 0 [] c5stF rfl).1 "alice"

/-! ### Threshold trigger and reset (claim C1 machinery) -/

/-- An event passes the threshold-count detector's filters for rule `r`
and lands in the bucket for grouping key `k`: the category matches, the
`match_field`/`match_value` test passes, and the `group_by` lookup (with
its `"unknown"` fallback) yields `k`. -/
def MatchesFailedLogin (r : DetectionRule) (e : Event) (k : String) : Prop :=
  ParamValue.str e.category = paramGetD r.parameters "event_category" (.str "auth") ∧
  optValEq (detailsGetP e.details (paramGetD r.parameters "match_field" (.str "result")))
    (paramGetD r.parameters "match_value" (.str "failed")) = true ∧
  (detailsGetP e.details (paramGetD r.parameters "group_by" (.str "username"))).getD
    "unknown" = k

instance (r : DetectionRule) (e : Event) (k : String) :
    Decidable (MatchesFailedLogin r e k) := by
  unfold MatchesFailedLogin
  infer_instance

theorem handle_failed_login_match_step {st : RuleState} {r : DetectionRule} {e : Event}
    {now : ℤ} {k : String} {T W : ℤ}
    (hT : pyInt (paramGetD r.parameters "threshold" (.int 5)) = some T)
    (hW : pyInt (paramGetD r.parameters "window_minutes" (.int 10)) = some W)
    (hm : MatchesFailedLogin r e k) :
    handle_failed_login st r e now =
      if T ≤ ((evict_old (st k ++ [e]) e.timestamp W).length : ℤ) then
        .ok ([failedLoginAlert r k (evict_old (st k ++ [e]) e.timestamp W) W e now],
          RuleState.update st k [])
      else .ok ([], RuleState.update st k (evict_old (st k ++ [e]) e.timestamp W)) := by
  rcases hm with ⟨h1, h2, h3⟩
  simp only [handle_failed_login, hT, hW]
  rw [if_neg (by simp [h1]), if_neg (by simp [h2]), h3]

theorem c1_acc {r : DetectionRule} {k : String} {T W : ℤ} (now : ℤ)
    (htype : r.rule_type = "failed_login_threshold")
    (hT : pyInt (paramGetD r.parameters "threshold" (.int 5)) = some T)
    (hW : pyInt (paramGetD r.parameters "window_minutes" (.int 10)) = some W) :
    ∀ (es : List Event) (st : EngineState),
      (∀ e ∈ es, MatchesFailedLogin r e k) →
      withinWindow W (st r.id k ++ es) →
      (((st r.id k).length : ℤ) + es.length < T) →
      processEvents st [r] es now =
        .ok ([], EngineState.update st r.id
          (RuleState.update (st r.id) k (st r.id k ++ es))) := by
  intro es
  induction es with
  | nil =>
    intro st _ _ _
    simp [processEvents, rsUpdate_self, esUpdate_self]
  | cons e es' ih =>
    intro st hm hwin hlen
    have hme := hm e (by simp)
    have hnoevict : evict_old (st r.id k ++ [e]) e.timestamp W = st r.id k ++ [e] := by
      apply evict_old_eq_self
      intro x hx
      have hxL : x ∈ st r.id k ++ e :: es' := by
        rcases List.mem_append.mp hx with h' | h'
        · exact List.mem_append.mpr (Or.inl h')
        · rw [List.mem_singleton] at h'
          subst h'
          exact List.mem_append.mpr (Or.inr (by simp))
      have heL : e ∈ st r.id k ++ e :: es' := List.mem_append.mpr (Or.inr (by simp))
      exact hwin x hxL e heL
    have hlen' : ((st r.id k).length : ℤ) + 1 + es'.length < T := by
      simp only [List.length_cons] at hlen
      push_cast at hlen
      omega
    have hlt : ¬ (T ≤ (((st r.id k ++ [e]).length : ℕ) : ℤ)) := by
      simp only [List.length_append, List.length_singleton]
      push_cast
      omega
    simp only [processEvents, processEventRules_singleton, ruleStep_failed_login htype,
      handle_failed_login_match_step hT hW hme, if_neg hlt, Except.map, hnoevict]
    rw [exceptOkBind]
    have hst1k : (EngineState.update st r.id
        (RuleState.update (st r.id) k (st r.id k ++ [e]))) r.id k = st r.id k ++ [e] := by
      rw [esUpdate_apply_same, rsUpdate_apply_same]
    have hrec := ih (EngineState.update st r.id
        (RuleState.update (st r.id) k (st r.id k ++ [e])))
      (fun x hx => hm x (by simp [hx]))
      (by rw [hst1k, List.append_assoc, List.singleton_append]; exact hwin)
      (by rw [hst1k]; simp only [List.length_append, List.length_singleton]; push_cast; omega)
    rw [hrec, exceptOkBind, exceptPureEq]
    simp only [List.nil_append, esUpdate_apply_same, rsUpdate_apply_same,
      esUpdate_update, rsUpdate_update, List.append_assoc,
      List.singleton_append]

theorem processEvents_append_ok {rules : List DetectionRule} {now : ℤ} :
    ∀ (xs : List Event) {ys : List Event} {st : EngineState} {as1 : List Alert}
      {st1 : EngineState},
      processEvents st rules xs now = .ok (as1, st1) →
      processEvents st rules (xs ++ ys) now =
        (processEvents st1 rules ys now).map (fun p2 => (as1 ++ p2.1, p2.2)) := by
  intro xs
  induction xs with
  | nil =>
    intro ys st as1 st1 h
    simp only [processEvents, Except.ok.injEq] at h
    injection h.symm with ha hst
    subst ha
    subst hst
    rcases h2 : processEvents st1 rules ys now with msg | p2 <;>
      simp [h2, Except.map]
  | cons x xs ih =>
    intro ys st as1 st1 h
    simp only [processEvents] at h ⊢
    rcases h1 : processEventRules st rules x now with msg | q1
    · rw [h1] at h; exact Except.noConfusion h
    · rw [h1, exceptOkBind] at h
      rw [exceptOkBind]
      rcases h2 : processEvents q1.2 rules xs now with msg | q2
      · rw [h2, exceptErrorBind] at h
        exact Except.noConfusion h
      · rw [h2, exceptOkBind, exceptPureEq] at h
        injection Except.ok.inj h with ha hst
        subst hst
        simp only [List.append_eq]
        rw [ih h2]
        rcases h3 : processEvents q2.2 rules ys now with msg | q3 <;>
          simp [h3, Except.map, exceptOkBind, exceptErrorBind, exceptPureEq, ← ha,
            List.append_assoc]

/-- C1: threshold trigger and reset.  Starting from a fresh window store,
feeding exactly `T` events that all pass the threshold-count rule's
filters, share the grouping key `k`, and lie within the window of one
another emits exactly one alert whose `events` field carries all `T`
events, and clears the bucket; an immediately following matching event
emits no further alert when `T ≥ 2` (it alone cannot reach `T`). -/
theorem c1_threshold_trigger_and_reset (r : DetectionRule) (k : String) (T W now : ℤ)
    (htype : r.rule_type = "failed_login_threshold") (hen : r.enabled = true)
    (hT : pyInt (paramGetD r.parameters "threshold" (.int 5)) = some T)
    (hW : pyInt (paramGetD r.parameters "window_minutes" (.int 10)) = some W)
    (hT1 : 1 ≤ T)
    (es : List Event) (hcount : (es.length : ℤ) = T)
    (hmatch : ∀ e ∈ es, MatchesFailedLogin r e k)
    (hwin : withinWindow W es) :
    ∃ alert stF,
      DetectionEngine.process [r] es now = .ok ([alert], stF) ∧
      alert.events = es ∧ stF r.id k = [] ∧
      ∀ e2, MatchesFailedLogin r e2 k → 2 ≤ T →
        ∃ stF2, DetectionEngine.process [r] (es ++ [e2]) now = .ok ([alert], stF2) := by
  have hne : es ≠ [] := by
    intro h
    subst h
    simp at hcount
    omega
  have hsplit : es.dropLast ++ [es.getLast hne] = es := List.dropLast_append_getLast hne
  have hengine : ∀ evs, DetectionEngine.process [r] evs now =
      processEvents EngineState.empty [r] evs now := by
    intro evs
    rw [DetectionEngine.process]
    congr 1
    simp [enabledRules, hen]
  have hemptyk : EngineState.empty r.id k = [] := rfl
  have hlen0 : ((EngineState.empty r.id k).length : ℤ) + es.dropLast.length < T := by
    rw [hemptyk]
    have h1 : es.dropLast.length = es.length - 1 := List.length_dropLast es
    have h2 : 1 ≤ es.length := List.length_pos.mpr hne
    simp only [List.length_nil, h1]
    push_cast [h2]
    omega
  have hmatchD : ∀ e ∈ es.dropLast, MatchesFailedLogin r e k :=
    fun e he => hmatch e ((List.dropLast_sublist es).subset he)
  have hwinD : withinWindow W (EngineState.empty r.id k ++ es.dropLast) := by
    rw [hemptyk, List.nil_append]
    intro x hx f hf
    exact hwin x ((List.dropLast_sublist es).subset hx) f ((List.dropLast_sublist es).subset hf)
  have hacc := c1_acc now htype hT hW es.dropLast EngineState.empty hmatchD hwinD hlen0
  set st1 := EngineState.update EngineState.empty r.id
    (RuleState.update (EngineState.empty r.id) k (EngineState.empty r.id k ++ es.dropLast))
    with hst1def
  have hst1k : st1 r.id k = es.dropLast := by
    rw [hst1def, esUpdate_apply_same, rsUpdate_apply_same, hemptyk,
      List.nil_append]
  have hlastmem : es.getLast hne ∈ es := List.getLast_mem hne
  have hnoevict2 : evict_old es (es.getLast hne).timestamp W = es :=
    evict_old_eq_self (fun x hx => hwin x hx (es.getLast hne) hlastmem)
  have hTcond : T ≤ ((es.length : ℕ) : ℤ) := le_of_eq hcount.symm
  have hstep : processEvents st1 [r] [es.getLast hne] now =
      .ok ([failedLoginAlert r k es W (es.getLast hne) now],
        EngineState.update st1 r.id (RuleState.update (st1 r.id) k [])) := by
    simp only [processEvents, processEventRules_singleton, ruleStep_failed_login htype,
      handle_failed_login_match_step hT hW (hmatch _ hlastmem), hst1k, hsplit,
      hnoevict2, if_pos hTcond, Except.map]
    rw [exceptOkBind]
    simp only [processEvents]
    rw [exceptOkBind, exceptPureEq]
    simp
  have hrun : DetectionEngine.process [r] es now =
      .ok ([failedLoginAlert r k es W (es.getLast hne) now],
        EngineState.update st1 r.id (RuleState.update (st1 r.id) k [])) := by
    rw [hengine]
    conv_lhs => rw [← hsplit]
    rw [processEvents_append_ok es.dropLast hacc, hstep]
    simp [Except.map]
  refine ⟨failedLoginAlert r k es W (es.getLast hne) now,
    EngineState.update st1 r.id (RuleState.update (st1 r.id) k []), hrun, rfl, ?_, ?_⟩
  · rw [esUpdate_apply_same, rsUpdate_apply_same]
  · intro e2 hm2 hT2
    set st2 := EngineState.update st1 r.id (RuleState.update (st1 r.id) k [])
      with hst2def
    have hst2k : st2 r.id k = [] := by
      rw [hst2def, esUpdate_apply_same, rsUpdate_apply_same]
    have hlt2 : ¬ (T ≤ ((evict_old (st2 r.id k ++ [e2]) e2.timestamp W).length : ℤ)) := by
      have hle := length_evict_old_le (st2 r.id k ++ [e2]) e2.timestamp W
      have hlen1 : (st2 r.id k ++ [e2]).length = 1 := by
        rw [hst2k]
        rfl
      rw [hlen1] at hle
      have h1 : ((evict_old (st2 r.id k ++ [e2]) e2.timestamp W).length : ℤ) ≤ 1 := by
        exact_mod_cast hle
      omega
    have hstep2 : processEvents st2 [r] [e2] now =
        .ok ([], EngineState.update st2 r.id (RuleState.update (st2 r.id) k
          (evict_old (st2 r.id k ++ [e2]) e2.timestamp W))) := by
      simp only [processEvents, processEventRules_singleton, ruleStep_failed_login htype,
        handle_failed_login_match_step hT hW hm2, if_neg hlt2, Except.map]
      rw [exceptOkBind]
      simp only [processEvents]
      rw [exceptOkBind, exceptPureEq]
      simp
    refine ⟨EngineState.update st2 r.id (RuleState.update (st2 r.id) k
      (evict_old (st2 r.id k ++ [e2]) e2.timestamp W)), ?_⟩
    rw [hengine, processEvents_append_ok es (by rw [← hengine]; exact hrun), hstep2]
    simp [Except.map]

/-- A threshold-count rule with `threshold = 2` for the C1 witness. -/
def c1rule : DetectionRule :=
  { id := "r-c1", name := "Repeated failures", rule_type := "failed_login_threshold"
    description := "", severity := "high", enabled := true
    parameters := [("threshold", .int 2), ("window_minutes", .int 10)]
    remediation := none }

/-- Witness for C1: two matching events trigger one alert carrying both
and clear the bucket; a third matching event right after adds no alert. -/
theorem c1_threshold_trigger_and_reset_witness :
    (DetectionEngine.process [c1rule] [c5event 0, c5event 120] 0).toOption.map
        (fun p => (p.1.map Alert.events, p.2 "r-c1" "alice")) =
      some ([[c5event 0, c5event 120]], []) ∧
    (DetectionEngine.process [c1rule] [c5event 0, c5event 120, c5event 240] 0).toOption.map
        (fun p => p.1.map Alert.events) = some [[c5event 0, c5event 120]] := by
  obtain ⟨alert, stF, h1, h2, h3, h4⟩ :=
    c1_threshold_trigger_and_reset c1rule "alice" 2 10 0 rfl rfl rfl rfl (by decide)
      [c5event 0, c5event 120] (by decide) (by decide) (by decide)
  obtain ⟨stF2, h5⟩ := h4 (c5event 240) (by decide) (by decide)
  have h3' : stF "r-c1" "alice" = [] := h3
  constructor
  · rw [h1]
    simp [Except.toOption, h2, h3']
  · have hl : [c5event 0, c5event 120] ++ [c5event 240]
        = [c5event 0, c5event 120, c5event 240] := rfl
    rw [← hl, h5]
    simp [Except.toOption, h2]

/-! ### The distinct-value detector (claims C2 and C3 machinery) -/

/-- An event passes the distinct-value detector's only filter (category)
for rule `r` and lands in the bucket for grouping key `k`. -/
def MatchesPortScan (r : DetectionRule) (e : Event) (k : String) : Prop :=
  ParamValue.str e.category = paramGetD r.parameters "event_category" (.str "network") ∧
  (detailsGetP e.details (paramGetD r.parameters "group_by" (.str "src_ip"))).getD
    "unknown" = k

instance (r : DetectionRule) (e : Event) (k : String) :
    Decidable (MatchesPortScan r e k) := by
  unfold MatchesPortScan
  infer_instance

theorem handle_port_scan_step {st : RuleState} {r : DetectionRule} {e : Event}
    {now : ℤ} {k : String} {T W : ℤ}
    (hT : pyInt (paramGetD r.parameters "threshold" (.int 15)) = some T)
    (hW : pyInt (paramGetD r.parameters "window_minutes" (.int 5)) = some W)
    (hm : MatchesPortScan r e k) :
    handle_port_scan st r e now =
      if T ≤ ((distinctCount (evict_old (st k ++ [e]) e.timestamp W)
          (paramGetD r.parameters "distinct_field" (.str "dest_port")) : ℕ) : ℤ) then
        .ok ([portScanAlert r k (evict_old (st k ++ [e]) e.timestamp W)
            (paramGetD r.parameters "distinct_field" (.str "dest_port"))
            (distinctCount (evict_old (st k ++ [e]) e.timestamp W)
              (paramGetD r.parameters "distinct_field" (.str "dest_port"))) e now],
          RuleState.update st k [])
      else .ok ([], RuleState.update st k (evict_old (st k ++ [e]) e.timestamp W)) := by
  rcases hm with ⟨h1, h2⟩
  simp only [handle_port_scan, hT, hW, distinctCount]
  rw [if_neg (by simp [h1]), h2]

theorem ruleStep_port_scan {st : EngineState} {r : DetectionRule} {e : Event} {now : ℤ}
    (htype : r.rule_type = "port_scan") :
    ruleStep st r e now = (handle_port_scan (st r.id) r e now).map
      (fun p => (p.1, EngineState.update st r.id p.2)) := by
  simp [ruleStep, handlers, htype]

/-- Deduplicated length is monotone along sublists. -/
theorem dedup_length_mono {α : Type} [DecidableEq α] {l1 l2 : List α}
    (h : l1.Sublist l2) : l1.dedup.length ≤ l2.dedup.length := by
  rw [← List.card_toFinset, ← List.card_toFinset]
  apply Finset.card_le_card
  intro x hx
  rw [List.mem_toFinset] at hx ⊢
  exact h.subset hx

theorem distinctCount_append_le (b : Bucket) (e : Event) (es' : List Event)
    (v : ParamValue) :
    distinctCount (b ++ [e]) v ≤ distinctCount (b ++ e :: es') v := by
  apply dedup_length_mono
  apply List.Sublist.map
  exact List.Sublist.append_left (List.Sublist.cons₂ e (List.nil_sublist es')) b

theorem c3_acc {r : DetectionRule} {k : String} {T W : ℤ} (now : ℤ)
    (htype : r.rule_type = "port_scan")
    (hT : pyInt (paramGetD r.parameters "threshold" (.int 15)) = some T)
    (hW : pyInt (paramGetD r.parameters "window_minutes" (.int 5)) = some W) :
    ∀ (es : List Event) (st : EngineState),
      (∀ e ∈ es, MatchesPortScan r e k) →
      withinWindow W (st r.id k ++ es) →
      ((distinctCount (st r.id k ++ es)
          (paramGetD r.parameters "distinct_field" (.str "dest_port")) : ℕ) : ℤ) < T →
      processEvents st [r] es now =
        .ok ([], EngineState.update st r.id
          (RuleState.update (st r.id) k (st r.id k ++ es))) := by
  intro es
  induction es with
  | nil =>
    intro st _ _ _
    simp [processEvents, rsUpdate_self, esUpdate_self]
  | cons e es' ih =>
    intro st hm hwin hdist
    have hme := hm e (by simp)
    have hnoevict : evict_old (st r.id k ++ [e]) e.timestamp W = st r.id k ++ [e] := by
      apply evict_old_eq_self
      intro x hx
      have hxL : x ∈ st r.id k ++ e :: es' := by
        rcases List.mem_append.mp hx with h' | h'
        · exact List.mem_append.mpr (Or.inl h')
        · rw [List.mem_singleton] at h'
          subst h'
          exact List.mem_append.mpr (Or.inr (by simp))
      have heL : e ∈ st r.id k ++ e :: es' := List.mem_append.mpr (Or.inr (by simp))
      exact hwin x hxL e heL
    have hdlt : ¬ (T ≤ ((distinctCount (st r.id k ++ [e])
        (paramGetD r.parameters "distinct_field" (.str "dest_port")) : ℕ) : ℤ)) := by
      have hmono := distinctCount_append_le (st r.id k) e es'
        (paramGetD r.parameters "distinct_field" (.str "dest_port"))
      have hmono' : ((distinctCount (st r.id k ++ [e])
          (paramGetD r.parameters "distinct_field" (.str "dest_port")) : ℕ) : ℤ) ≤
          ((distinctCount (st r.id k ++ e :: es')
            (paramGetD r.parameters "distinct_field" (.str "dest_port")) : ℕ) : ℤ) := by
        exact_mod_cast hmono
      omega
    simp only [processEvents, processEventRules_singleton, ruleStep_port_scan htype,
      handle_port_scan_step hT hW hme, hnoevict, if_neg hdlt, Except.map]
    rw [exceptOkBind]
    have hst1k : (EngineState.update st r.id
        (RuleState.update (st r.id) k (st r.id k ++ [e]))) r.id k = st r.id k ++ [e] := by
      rw [esUpdate_apply_same, rsUpdate_apply_same]
    have hrec := ih (EngineState.update st r.id
        (RuleState.update (st r.id) k (st r.id k ++ [e])))
      (fun x hx => hm x (by simp [hx]))
      (by rw [hst1k, List.append_assoc, List.singleton_append]; exact hwin)
      (by rw [hst1k, List.append_assoc, List.singleton_append]; exact hdist)
    rw [hrec, exceptOkBind, exceptPureEq]
    simp only [List.nil_append, esUpdate_apply_same, rsUpdate_apply_same,
      esUpdate_update, rsUpdate_update, List.append_assoc,
      List.singleton_append]

/-- A port-scan rule that supplies `match_field`/`match_value` parameters
(threshold 1, so any single counted event alerts). -/
def c2rule : DetectionRule :=
  { id := "r-c2", name := "Port scan", rule_type := "port_scan"
    description := "", severity := "medium", enabled := true
    parameters := [("threshold", .int 1), ("match_field", .str "result"),
      ("match_value", .str "failed")]
    remediation := none }

/-- A network event whose `details[match_field]` differs from the rule's
`match_value` (`"success" ≠ "failed"`). -/
def c2event : Event :=
  { timestamp := 0, source := "fw.log", category := "network", severity := "low"
    details := [("src_ip", "10.0.0.9"), ("result", "success"), ("dest_port", "80")] }

/-- Counterexample to C2: the event fails the claimed
`details[match_field] == match_value` filter, yet the distinct-value
detector appends it and emits an alert containing it. -/
theorem c2_match_filter_counterexample :
    optValEq (detailsGetP c2event.details
        (paramGetD c2rule.parameters "match_field" (.str "result")))
      (paramGetD c2rule.parameters "match_value" (.str "failed")) = false ∧
    (handle_port_scan RuleState.empty c2rule c2event 0).toOption.map
      (fun p => p.1.map Alert.events) = some [[c2event]] :=
  ⟨rfl, rfl⟩

/-- C2 amended: the distinct-value detector filters on the event category
only; `match_field`/`match_value` parameters are ignored.  A
category-matching event whose `details[match_field]` differs from
`match_value` is still appended to its bucket (and hence counted): the
handler's behaviour is exactly the append/evict/count step, and the event
itself survives eviction whenever the window is nonnegative. -/
theorem c2_port_scan_ignores_match_params (st : RuleState) (r : DetectionRule)
    (e : Event) (now : ℤ) (k : String) (T W : ℤ)
    (hT : pyInt (paramGetD r.parameters "threshold" (.int 15)) = some T)
    (hW : pyInt (paramGetD r.parameters "window_minutes" (.int 5)) = some W)
    (hm : MatchesPortScan r e k)
    (hnomatch : optValEq (detailsGetP e.details
        (paramGetD r.parameters "match_field" (.str "result")))
      (paramGetD r.parameters "match_value" (.str "failed")) = false) :
    handle_port_scan st r e now =
      (if T ≤ ((distinctCount (evict_old (st k ++ [e]) e.timestamp W)
          (paramGetD r.parameters "distinct_field" (.str "dest_port")) : ℕ) : ℤ) then
        .ok ([portScanAlert r k (evict_old (st k ++ [e]) e.timestamp W)
            (paramGetD r.parameters "distinct_field" (.str "dest_port"))
            (distinctCount (evict_old (st k ++ [e]) e.timestamp W)
              (paramGetD r.parameters "distinct_field" (.str "dest_port"))) e now],
          RuleState.update st k [])
      else .ok ([], RuleState.update st k (evict_old (st k ++ [e]) e.timestamp W))) ∧
    (0 ≤ W → e ∈ evict_old (st k ++ [e]) e.timestamp W) := by
  refine ⟨handle_port_scan_step hT hW hm, ?_⟩
  intro hWpos
  apply mem_dropWhile_of_mem
  · exact List.mem_append.mpr (Or.inr (by simp))
  · simp only [decide_eq_false_iff_not, not_lt]
    omega

/-- Witness for the amended C2 at concrete inputs. -/
theorem c2_port_scan_ignores_match_params_witness :
    c2event ∈ evict_old (RuleState.empty "10.0.0.9" ++ [c2event]) c2event.timestamp 5 :=
  (c2_port_scan_ignores_match_params RuleState.empty c2rule c2event 0 "10.0.0.9" 1 5
    rfl rfl (by decide) rfl).2 (by decide)

/-- A port-scan rule with threshold 2 and no match parameters. -/
def c3rule : DetectionRule :=
  { id := "r-c3", name := "Port scan", rule_type := "port_scan"
    description := "", severity := "medium", enabled := true
    parameters := [("threshold", .int 2)]
    remediation := none }

/-- A network event carrying a `dest_port`. -/
def c3e1 : Event :=
  { timestamp := 0, source := "fw.log", category := "network", severity := "low"
    details := [("src_ip", "10.0.0.9"), ("dest_port", "80")] }

/-- A network event lacking the `dest_port` key. -/
def c3e2 : Event :=
  { timestamp := 10, source := "fw.log", category := "network", severity := "low"
    details := [("src_ip", "10.0.0.9")] }

/-- Counterexample to C3: with threshold 2, two category-matching events
of which only one carries a present `dest_port` value (one distinct
present value, fewer than the threshold) nevertheless trigger an alert,
because the missing field contributes `None` as a second distinct value. -/
theorem c3_missing_field_counterexample :
    pyInt (paramGetD c3rule.parameters "threshold" (.int 15)) = some 2 ∧
    ([c3e1, c3e2].filterMap (fun e => detailsGet e.details "dest_port")).dedup.length = 1 ∧
    (DetectionEngine.process [c3rule] [c3e1, c3e2] 0).toOption.map
      (fun p => p.1.length) = some 1 :=
  ⟨rfl, rfl, rfl⟩

/-- C3 amended: an event lacking `distinct_field` still enters the window
and contributes the absent marker (`none`) as a distinct value shared by
all such events.  Feeding category-matching events (same key, within the
window) whose option-values of `distinct_field` — the absent marker
included — comprise fewer than `T` distinct values triggers no alert. -/
theorem c3_missing_distinct_field_amended (r : DetectionRule) (k : String)
    (T W now : ℤ)
    (htype : r.rule_type = "port_scan") (hen : r.enabled = true)
    (hT : pyInt (paramGetD r.parameters "threshold" (.int 15)) = some T)
    (hW : pyInt (paramGetD r.parameters "window_minutes" (.int 5)) = some W)
    (es : List Event)
    (hmatch : ∀ e ∈ es, MatchesPortScan r e k)
    (hwin : withinWindow W es)
    (hdist : (((es.map (fun e => detailsGetP e.details
        (paramGetD r.parameters "distinct_field" (.str "dest_port")))).dedup.length : ℕ)
      : ℤ) < T) :
    ∃ stF, DetectionEngine.process [r] es now = .ok ([], stF) := by
  have hengine : DetectionEngine.process [r] es now =
      processEvents EngineState.empty [r] es now := by
    rw [DetectionEngine.process]
    congr 1
    simp [enabledRules, hen]
  have hemptyk : EngineState.empty r.id k = [] := rfl
  have hacc := c3_acc now htype hT hW es EngineState.empty hmatch
    (by rw [hemptyk, List.nil_append]; exact hwin)
    (by rw [hemptyk, List.nil_append]; exact hdist)
  exact ⟨_, by rw [hengine, hacc]⟩

/-- Witness for the amended C3: one event with one distinct present value
stays below threshold 2 and alerts nothing. -/
theorem c3_missing_distinct_field_amended_witness :
    (DetectionEngine.process [c3rule] [c3e1] 0).toOption.map (fun p => p.1) = some [] := by
  obtain ⟨stF, h⟩ := c3_missing_distinct_field_amended c3rule "10.0.0.9" 2 5 0
    rfl rfl rfl rfl [c3e1] (by decide) (by decide) (by decide)
  rw [h]
  rfl

/-! ### The anomaly-scoring detector (claims C4 and C9) -/

/-- A dns-anomaly rule with `length_threshold = 10` (entropy threshold
left at its default 3.5). -/
def c4rule : DetectionRule :=
  { id := "r-c4", name := "DNS anomaly", rule_type := "dns_anomaly"
    description := "", severity := "high", enabled := true
    parameters := [("length_threshold", .int 10)]
    remediation := none }

/-- A dns event whose query has length exactly 10 and entropy exactly 0. -/
def c4event : Event :=
  { timestamp := 5, source := "dns.log", category := "dns", severity := "low"
    details := [("query", "aaaaaaaaaa")] }

/-- Counterexample to C4: the query's length equals `length_threshold`
(so it does not strictly exceed it) and its entropy (exactly 0) does not
exceed — strictly or otherwise — the 3.5 threshold, yet the detector
emits an alert, because the code compares with `>=`, not `>`. -/
theorem c4_strict_comparison_counterexample :
    (("aaaaaaaaaa" : String).length : ℤ) = 10 ∧
    ¬ ((("aaaaaaaaaa" : String).length : ℤ) > 10) ∧
    entropyGt "aaaaaaaaaa" (mkRat 7 2) = false ∧
    entropyGe "aaaaaaaaaa" (mkRat 7 2) = false ∧
    (handle_dns_anomaly RuleState.empty c4rule c4event 0).toOption.map
      (fun p => p.1.map Alert.events) = some [[c4event]] :=
  ⟨rfl, by decide, by decide, by decide, rfl⟩

/-- C4 amended: for a category-matching event with a present, nonempty
target field, the anomaly detector emits exactly one alert for that event
if and only if the field's length is at least `length_threshold` or its
Shannon entropy is at least `entropy_threshold` (non-strict comparisons);
at equality it alerts. -/
theorem c4_anomaly_threshold_amended (st : RuleState) (r : DetectionRule) (e : Event)
    (now : ℤ) (L : ℤ) (E : ℚ) (d : String)
    (hL : pyInt (paramGetD r.parameters "length_threshold" (.int 45)) = some L)
    (hE : pyFloat (paramGetD r.parameters "entropy_threshold" (.float (mkRat 7 2))) = some E)
    (hcat : ParamValue.str e.category =
      paramGetD r.parameters "event_category" (.str "dns"))
    (hq : detailsGet e.details "query" = some d) (hne : d ≠ "") :
    (L ≤ (d.length : ℤ) ∨ entropyGe d E = true →
      handle_dns_anomaly st r e now = .ok ([dnsAlert r d e now], st)) ∧
    (¬ (L ≤ (d.length : ℤ) ∨ entropyGe d E = true) →
      handle_dns_anomaly st r e now = .ok ([], st)) ∧
    (dnsAlert r d e now).events = [e] := by
  refine ⟨?_, ?_, rfl⟩ <;> intro hcond <;>
    simp only [handle_dns_anomaly, hL, hE] <;>
    rw [if_neg (by simp [hcat])] <;> simp only [hq] <;> rw [if_neg hne]
  · rw [if_pos hcond]
  · rw [if_neg hcond]

/-- Witness for the amended C4: a query of length exactly the threshold
alerts (the `≥` branch at equality). -/
theorem c4_anomaly_threshold_amended_witness :
    handle_dns_anomaly RuleState.empty c4rule c4event 0 =
      .ok ([dnsAlert c4rule "aaaaaaaaaa" c4event 0], RuleState.empty) :=
  (c4_anomaly_threshold_amended RuleState.empty c4rule c4event 0 10 (mkRat 7 2) "aaaaaaaaaa"
    rfl rfl rfl rfl (by decide)).1 (Or.inl (by decide))

/-- C9: the anomaly detector is stateless — its result returns the input
window state untouched and its alert component is a function of the rule
and event alone (computed here against the empty state); and, when the
numeric parameters coerce, a missing or empty target field yields no
alert and no error. -/
theorem c9_dns_stateless :
    (∀ (st : RuleState) (r : DetectionRule) (e : Event) (now : ℤ),
      handle_dns_anomaly st r e now =
        (handle_dns_anomaly RuleState.empty r e now).map (fun p => (p.1, st))) ∧
    (∀ (st : RuleState) (r : DetectionRule) (e : Event) (now : ℤ) (L : ℤ) (E : ℚ),
      pyInt (paramGetD r.parameters "length_threshold" (.int 45)) = some L →
      pyFloat (paramGetD r.parameters "entropy_threshold" (.float (mkRat 7 2))) = some E →
      (detailsGet e.details "query" = none ∨ detailsGet e.details "query" = some "") →
      handle_dns_anomaly st r e now = .ok ([], st)) := by
  constructor
  · intro st r e now
    rcases hL : pyInt (paramGetD r.parameters "length_threshold" (.int 45)) with _ | L <;>
      rcases hE : pyFloat (paramGetD r.parameters "entropy_threshold" (.float (mkRat 7 2)))
        with _ | E <;>
      simp only [handle_dns_anomaly, hL, hE, Except.map] <;>
      try rfl
    split_ifs with hc
    · rfl
    · rcases hq : detailsGet e.details "query" with _ | d <;> simp only [hq] <;>
        first
        | rfl
        | (split_ifs <;> rfl)
  · intro st r e now L E hL hE hq
    rcases hq with hq | hq <;>
      simp only [handle_dns_anomaly, hL, hE] <;>
      split_ifs <;> simp [hq]

/-- A dns event with no `query` field at all. -/
def c9event : Event :=
  { timestamp := 7, source := "dns.log", category := "dns", severity := "low"
    details := [("client", "10.0.0.2")] }

/-- Witness for C9: a missing target field yields no alert and no error,
and the (nonempty) window state comes back untouched. -/
theorem c9_dns_stateless_witness :
    handle_dns_anomaly (RuleState.update RuleState.empty "x" [c3e1]) c4rule c9event 0 =
      .ok ([], RuleState.update RuleState.empty "x" [c3e1]) :=
  c9_dns_stateless.2 (RuleState.update RuleState.empty "x" [c3e1]) c4rule c9event 0
    10 (mkRat 7 2) rfl rfl (Or.inl rfl)

/-! ### Configuration errors, disabled rules, unknown rule types
(claims C6, C7, C8) -/

theorem paramGetD_of_lookup {ps : List (String × ParamValue)} {k : String}
    {v d : ParamValue} (h : paramLookup ps k = some v) : paramGetD ps k d = v := by
  simp [paramGetD, h]

/-- C6: a rule whose `threshold` or `window_minutes` parameter is present
but not coercible to int makes the engine surface an error to the caller
on the first processed event; it does not continue with a default. -/
theorem c6_coercion_error_surfaced (r : DetectionRule) (v : ParamValue) (p : String)
    (htype : r.rule_type = "failed_login_threshold" ∨ r.rule_type = "port_scan")
    (hen : r.enabled = true)
    (hp : p = "threshold" ∨ p = "window_minutes")
    (hlook : paramLookup r.parameters p = some v)
    (hbad : pyInt v = none)
    (e : Event) (es : List Event) (now : ℤ) :
    ∃ msg, DetectionEngine.process [r] (e :: es) now = .error msg := by
  have hhandler : ∀ h, handlers r.rule_type = some h →
      ∃ msg, h (EngineState.empty r.id) r e now = .error msg := by
    intro h hh
    rcases htype with ht | ht <;> rw [ht] at hh <;>
      simp only [handlers, if_pos rfl] at hh <;>
      try rw [if_neg (by decide), if_pos rfl] at hh
    · cases hh
      rcases hp with hp | hp <;> subst hp
      · exact ⟨_, by
          simp only [handle_failed_login, paramGetD_of_lookup hlook, hbad]; rfl⟩
      · rcases hT : pyInt (paramGetD r.parameters "threshold" (.int 5)) with _ | T
        · exact ⟨_, by simp only [handle_failed_login, hT]; rfl⟩
        · exact ⟨_, by
            simp only [handle_failed_login, hT, paramGetD_of_lookup hlook, hbad]; rfl⟩
    · cases hh
      rcases hp with hp | hp <;> subst hp
      · exact ⟨_, by
          simp only [handle_port_scan, paramGetD_of_lookup hlook, hbad]; rfl⟩
      · rcases hT : pyInt (paramGetD r.parameters "threshold" (.int 15)) with _ | T
        · exact ⟨_, by simp only [handle_port_scan, hT]; rfl⟩
        · exact ⟨_, by
            simp only [handle_port_scan, hT, paramGetD_of_lookup hlook, hbad]; rfl⟩
  have hsome : ∃ h, handlers r.rule_type = some h := by
    rcases htype with ht | ht <;> rw [ht] <;> simp [handlers]
  rcases hsome with ⟨h, hh⟩
  rcases hhandler h hh with ⟨msg, hmsg⟩
  refine ⟨msg, ?_⟩
  have hstep : ruleStep EngineState.empty r e now = .error msg := by
    unfold ruleStep
    simp only [hh, hmsg, Except.map]
  have hload : enabledRules [r] = [r] := by simp [enabledRules, hen]
  rw [DetectionEngine.process, hload]
  simp only [processEvents, processEventRules_singleton, hstep, exceptErrorBind]

/-- A rule whose `threshold` is the non-numeric string `"lots"`. -/
def c6rule : DetectionRule :=
  { id := "r-c6", name := "Bad threshold", rule_type := "failed_login_threshold"
    description := "", severity := "high", enabled := true
    parameters := [("threshold", .str "lots")]
    remediation := none }

/-- Witness for C6: the run over one event is an error, not a success. -/
theorem c6_coercion_error_surfaced_witness :
    (DetectionEngine.process [c6rule] [c5event 0] 0).isOk = false := by
  obtain ⟨msg, h⟩ := c6_coercion_error_surfaced c6rule (.str "lots") "threshold"
    (Or.inl rfl) rfl (Or.inl rfl) rfl rfl (c5event 0) [] 0
  rw [h]
  rfl

/-- C7: disabled rules are inert — removing a disabled rule from the rule
set changes neither the emitted alerts nor the final window store, for
every event sequence. -/
theorem c7_disabled_rules_inert (r : DetectionRule) (hr : r.enabled = false)
    (xs ys : List DetectionRule) (events : List Event) (now : ℤ) :
    DetectionEngine.process (xs ++ r :: ys) events now =
      DetectionEngine.process (xs ++ ys) events now := by
  unfold DetectionEngine.process
  congr 1
  simp [enabledRules, List.filter_append, hr]

/-- A disabled threshold-count rule. -/
def c7rule : DetectionRule :=
  { id := "r-c7", name := "Disabled", rule_type := "failed_login_threshold"
    description := "", severity := "high", enabled := false
    parameters := [("threshold", .int 1)]
    remediation := none }

/-- Witness for C7 at a concrete rule set and event. -/
theorem c7_disabled_rules_inert_witness :
    DetectionEngine.process [c7rule, c1rule] [c5event 0] 0 =
      DetectionEngine.process [c1rule] [c5event 0] 0 :=
  c7_disabled_rules_inert c7rule rfl [] [c1rule] [c5event 0] 0

/-- C8: a rule whose `rule_type` matches no registered algorithm is
silently skipped: one engine step under it raises no error, emits no
alert and leaves the window store unchanged. -/
theorem c8_unknown_rule_type_skipped (st : EngineState) (r : DetectionRule) (e : Event)
    (now : ℤ)
    (h1 : r.rule_type ≠ "failed_login_threshold")
    (h2 : r.rule_type ≠ "port_scan")
    (h3 : r.rule_type ≠ "dns_anomaly") :
    ruleStep st r e now = .ok ([], st) := by
  unfold ruleStep handlers
  rw [if_neg h1, if_neg h2, if_neg h3]

/-- A rule with an unregistered type. -/
def c8rule : DetectionRule :=
  { id := "r-c8", name := "Future rule", rule_type := "beacon_detection"
    description := "", severity := "low", enabled := true
    parameters := []
    remediation := none }

/-- Witness for C8 at a concrete unknown-type rule. -/
theorem c8_unknown_rule_type_skipped_witness :
    ruleStep EngineState.empty c8rule (c5event 0) 0 = .ok ([], EngineState.empty) :=
  c8_unknown_rule_type_skipped EngineState.empty c8rule (c5event 0) 0
    (by decide) (by decide) (by decide)
